import Mathlib

/-!
# Verification of rodio (zweiund40 fork): fadeable source and output stream

Shallow embedding of `src/source/fadeable.rs` and `src/stream.rs`.

The `f32` fields of `Fadeable` (`remaining_ns`, `total_ns`, `f`) are modelled
over `ℚ`.  Every arithmetic operation the embedded code performs on them
(subtraction, division, comparison against `0` and `1`) is exact on the values
arising in the concrete scenarios checked below, in which all intermediate
values are small dyadic-times-decimal numbers representable in `f32`, so the
rational run agrees bit-for-bit with the floating-point run on those inputs.

The shared atomic direction cell (`Arc<AtomicU8>`) is modelled by passing the
value observed by the two `load`s of a poll as an explicit argument `req` to
`Fadeable.next`; an arbitrary `req` on every poll models any interleaving of
`change_direction` stores with polls.
-/

namespace Rodio

/-- `FadeDirection` from `fadeable.rs` (`In`, `Out`, `Nothing`). -/
inductive FadeDirection where
  | In
  | Out
  | Nothing
deriving DecidableEq

/-- The `u8` discriminant of a `FadeDirection` (`direction as u8` in Rust:
declaration order gives `In = 0`, `Out = 1`, `Nothing = 2`). -/
def FadeDirection.toU8 : FadeDirection → Nat
  | .In => 0
  | .Out => 1
  | .Nothing => 2

/-- The inner source `I : Source` seen through the operations `Fadeable::next`
uses: `sample_rate()`, `channels()`, and `next()` which pops the head of the
remaining sample stream. Samples (`I::Item : Sample`) are modelled as `ℚ`. -/
structure FadeInner where
  sampleRate : Nat
  channels : Nat
  samples : List ℚ
deriving DecidableEq

/-- `self.input.next()`: yields the head sample and advances the source. -/
def FadeInner.next (i : FadeInner) : Option ℚ × FadeInner :=
  (i.samples.head?, { i with samples := i.samples.tail })

/-- `Sample::amplify` for `f32` samples: multiplication by the factor. -/
def amplify (v a : ℚ) : ℚ := v * a

/-- The `Fadeable` struct of `fadeable.rs`.  The `direction : Arc<AtomicU8>`
field is externalised (see module docstring); the remaining fields are kept. -/
structure Fadeable where
  input : FadeInner
  remaining_ns : ℚ
  total_ns : ℚ
  f : ℚ
  current_direction : Nat
deriving DecidableEq

/-- The `fadeable` constructor: `remaining_ns = total_ns = duration` in
nanoseconds, `f = 1.0`, `current_direction = Nothing as u8`; the second
component is the initial content of the shared direction cell
(`AtomicU8::new(FadeDirection::Nothing as u8)`). -/
def fadeable (input : FadeInner) (duration_ns : Nat) : Fadeable × Nat :=
  ({ input := input
     remaining_ns := (duration_ns : ℚ)
     total_ns := (duration_ns : ℚ)
     f := 1
     current_direction := FadeDirection.Nothing.toU8 },
   FadeDirection.Nothing.toU8)

/-- First step of `Fadeable::next` (lines 96-99): if the observed value of the
shared direction cell differs from `current_direction`, reset `remaining_ns`
to `total_ns` and adopt the observed direction. -/
def Fadeable.observeDirection (s : Fadeable) (req : Nat) : Fadeable :=
  if req ≠ s.current_direction then
    { s with remaining_ns := s.total_ns, current_direction := req }
  else s

/-- Body of `Fadeable::next` after the direction check (lines 101-121):
fast path when `remaining_ns <= 0.0 && (f >= 1.0 || f <= 0.0)`, otherwise
compute `factor`, conditionally pin `f`, decrement `remaining_ns` by
`1e9 / (sample_rate * channels)`, and emit the next inner sample amplified
by `f`. -/
def Fadeable.nextCore (s : Fadeable) : Option ℚ × Fadeable :=
  if s.remaining_ns ≤ 0 ∧ (s.f ≥ 1 ∨ s.f ≤ 0) then
    ((s.input.next).1.map (fun v => amplify v s.f),
     { s with input := (s.input.next).2 })
  else
    let factor : ℚ :=
      if s.current_direction = FadeDirection.Out.toU8 then
        s.remaining_ns / s.total_ns
      else
        1 - s.remaining_ns / s.total_ns
    let s1 := if factor < 0 then { s with f := 0 } else s
    let s2 := if factor > 1 then { s1 with f := 1 } else s1
    let s3 := { s2 with
      remaining_ns :=
        s2.remaining_ns -
          1000000000 / ((s.input.sampleRate : ℚ) * (s.input.channels : ℚ)) }
    ((s3.input.next).1.map (fun v => amplify v s3.f),
     { s3 with input := (s3.input.next).2 })

/-- One poll of `Fadeable::next`, observing the value `req` in the shared
direction cell. -/
def Fadeable.next (s : Fadeable) (req : Nat) : Option ℚ × Fadeable :=
  (s.observeDirection req).nextCore

/-- Iterate `n` polls of `Fadeable::next`, each observing `req`, keeping only
the state. -/
def Fadeable.runPolls (s : Fadeable) (req : Nat) : Nat → Fadeable
  | 0 => s
  | n + 1 => ((s.runPolls req n).next req).2

/-- The same `Fadeable` state with the inner source exhausted (no samples
left); used to compare the bookkeeping of a poll against a poll on which the
inner source returns `None`. -/
def Fadeable.exhaust (s : Fadeable) : Fadeable :=
  { s with input := { s.input with samples := [] } }

/-- States reachable from a freshly constructed `Fadeable` under any
interleaving of `next` polls and `change_direction` stores (the observed cell
value `req` is arbitrary on every poll, which covers every interleaving). -/
inductive FadeReachable : Fadeable → Prop where
  | init (input : FadeInner) (duration_ns : Nat) :
      FadeReachable (fadeable input duration_ns).1
  | step (s : Fadeable) (req : Nat) :
      FadeReachable s → FadeReachable (s.next req).2

/-- The concrete scenario of the spec's fade-out example: `total_ns = 1e9`
(a one-second fade), `sample_rate = 1000`, `channels = 1`, 500 samples of
value `1` available. -/
def c1Start : Fadeable := (fadeable ⟨1000, 1, List.replicate 500 1⟩ 1000000000).1

/-! ## Embedding of `src/stream.rs`

The cpal layer (`Device`, `Host`, error payloads, `Sample::from_sample`,
`cmp_default_heuristics`) is external to the repository; its values are
carried as opaque `Nat` tags or abstract functions, while every branch and
loop of the repository's own code is translated. -/

/-- `StreamError` from `stream.rs`; the wrapped cpal error values are opaque
tags. -/
inductive StreamError where
  | PlayStreamError (e : Nat)
  | DefaultStreamConfigError (e : Nat)
  | BuildStreamError (e : Nat)
  | SupportedStreamConfigsError (e : Nat)
  | NoDevice
deriving DecidableEq

/-- `PlayError` from `stream.rs`. -/
inductive PlayError where
  | DecoderError (e : Nat)
  | NoDevice
deriving DecidableEq

/-- A `cpal::SupportedStreamConfigRange`: one family of supported
configurations, spanning a sample-rate range. Other cpal fields are carried
as an opaque tag. -/
structure SupportedStreamConfigRange where
  channels : Nat
  minSampleRate : Nat
  maxSampleRate : Nat
  tag : Nat
deriving DecidableEq

/-- A `cpal::SupportedStreamConfig`: a family pinned to one sample rate. -/
structure SupportedStreamConfig where
  channels : Nat
  sampleRate : Nat
  tag : Nat
deriving DecidableEq

/-- `cpal`'s `with_sample_rate`. -/
def SupportedStreamConfigRange.withSampleRate
    (sf : SupportedStreamConfigRange) (r : Nat) : SupportedStreamConfig :=
  ⟨sf.channels, r, sf.tag⟩

/-- `cpal`'s `with_max_sample_rate`. -/
def SupportedStreamConfigRange.withMaxSampleRate
    (sf : SupportedStreamConfigRange) : SupportedStreamConfig :=
  sf.withSampleRate sf.maxSampleRate

/-- The `HZ_44100` constant of `supported_output_formats`. -/
def HZ_44100 : Nat := 44100

/-- The order used by `supported.sort_by(|a, b| b.cmp_default_heuristics(a))`:
`a` may precede `b` when the reversed comparator does not answer `Greater`,
so the most preferred family comes first. `cmp` is cpal's
`cmp_default_heuristics`, abstract here. -/
def sortLE (cmp : SupportedStreamConfigRange → SupportedStreamConfigRange → Ordering)
    (a b : SupportedStreamConfigRange) : Bool :=
  !(cmp b a == Ordering.gt)

/-- The per-family candidate burst of `supported_output_formats`
(lines 365-374): the family at its max rate, then at 44100 Hz when 44100
lies strictly inside the family's range, then at its min rate. -/
def formatBurst (sf : SupportedStreamConfigRange) : List SupportedStreamConfig :=
  let formats := [sf.withMaxSampleRate]
  let formats :=
    if HZ_44100 < sf.maxSampleRate ∧ HZ_44100 > sf.minSampleRate then
      formats ++ [sf.withSampleRate HZ_44100]
    else formats
  formats ++ [sf.withSampleRate sf.minSampleRate]

/-- A `cpal::Device` as seen by `try_new_output_stream_config`: the outcome
of the repository's `new_output_stream_with_format` on this device is
determined by cpal's `build_output_stream`, so it is a field (stream handles
and `BuildStreamError` payloads are `Nat` tags), as is the outcome of cpal's
`supported_output_configs`. -/
structure Device where
  newOutputStreamWithFormat : SupportedStreamConfig → Except Nat Nat
  supportedOutputConfigs : Except Nat (List SupportedStreamConfigRange)

/-- `supported_output_formats` (lines 354-375): collect the supported
families (propagating a listing failure as
`StreamError::SupportedStreamConfigsError`), sort most preferred first, and
concatenate the per-family bursts. -/
def supported_output_formats
    (cmp : SupportedStreamConfigRange → SupportedStreamConfigRange → Ordering)
    (device : Device) : Except StreamError (List SupportedStreamConfig) :=
  match device.supportedOutputConfigs with
  | .error e => .error (StreamError.SupportedStreamConfigsError e)
  | .ok supported => .ok ((supported.mergeSort (sortLE cmp)).flatMap formatBurst)

/-- `try_new_output_stream_config` (lines 339-350): build with the given
config; on failure walk the negotiated candidate list and return the first
success, or the original error wrapped as `StreamError::BuildStreamError`. -/
def tryNewOutputStreamConfig
    (cmp : SupportedStreamConfigRange → SupportedStreamConfigRange → Ordering)
    (device : Device) (config : SupportedStreamConfig) : Except StreamError Nat :=
  match device.newOutputStreamWithFormat config with
  | .ok s => .ok s
  | .error err =>
    match supported_output_formats cmp device with
    | .error e2 => .error e2
    | .ok formats =>
      match formats.findSome? (fun f => (device.newOutputStreamWithFormat f).toOption) with
      | some s => .ok s
      | none => .error (StreamError.BuildStreamError err)

/-- The `cpal::SampleFormat`s enumerated by
`new_output_stream_with_format`. -/
inductive SampleFormat where
  | f32
  | f64
  | i8
  | i16
  | i32
  | i64
  | u8
  | u16
  | u32
  | u64
deriving DecidableEq

/-- One slot written by the data callback of `new_output_stream_with_format`
(lines 227-333): the value the mixer yielded (converted by
`Sample::from_sample`, abstract as `conv`, for every format except `f32`
which is the mixer's native format), or the format's literal fallback
(`0f32`, `0f64`, `0i8` ... or `uN::MAX / 2`) when the mixer yielded
nothing. -/
def writeSlot (fmt : SampleFormat) (conv : ℚ → ℚ) (yielded : Option ℚ) : ℚ :=
  match fmt with
  | .f32 => yielded.getD 0
  | .f64 => (yielded.map conv).getD 0
  | .i8 => (yielded.map conv).getD 0
  | .i16 => (yielded.map conv).getD 0
  | .i32 => (yielded.map conv).getD 0
  | .i64 => (yielded.map conv).getD 0
  | .u8 => (yielded.map conv).getD (((2 ^ 8 - 1 : Nat) / 2 : Nat) : ℚ)
  | .u16 => (yielded.map conv).getD (((2 ^ 16 - 1 : Nat) / 2 : Nat) : ℚ)
  | .u32 => (yielded.map conv).getD (((2 ^ 32 - 1 : Nat) / 2 : Nat) : ℚ)
  | .u64 => (yielded.map conv).getD (((2 ^ 64 - 1 : Nat) / 2 : Nat) : ℚ)

/-- One invocation of the data callback on a buffer of `n` slots:
`data.iter_mut().for_each(|d| *d = ...)` writes every slot in order, slot `i`
receiving the `i`-th answer of the mixer's consumer endpoint
(`yields i = none` models `mixer_rx.next()` returning no sample). -/
def runCallback (fmt : SampleFormat) (conv : ℚ → ℚ)
    (yields : Nat → Option ℚ) (n : Nat) : List ℚ :=
  (List.range n).map fun i => writeSlot fmt conv (yields i)

/-- The mixer controller of `dynamic_mixer.rs`.
Modelled from the spec: `dynamic_mixer.rs` is not part of this snapshot; per
the spec, `DynamicMixerController::add` registers a source with the mixer,
so the controller is its list of registered sources (`Nat` tags). -/
structure DynamicMixerController where
  sources : List Nat
deriving DecidableEq

/-- Modelled from the spec: `DynamicMixerController::add` adds the given
source to the mixer's set of active sources. -/
def DynamicMixerController.add (m : DynamicMixerController) (src : Nat) :
    DynamicMixerController :=
  ⟨m.sources ++ [src]⟩

/-- `OutputStreamHandle`: holds a `Weak` reference to the backing stream's
mixer. The field models the result of `Weak::upgrade`: `none` exactly when
the backing `OutputStream` has been dropped. -/
structure OutputStreamHandle where
  mixer : Option DynamicMixerController

/-- `OutputStreamHandle::play_raw` (lines 103-110): upgrade the weak mixer
reference, failing with `PlayError::NoDevice` when the backing stream is
gone, otherwise add the source. The returned mixer is the mixer after the
`add`, making the state effect explicit. -/
def OutputStreamHandle.play_raw (h : OutputStreamHandle) (src : Nat) :
    Except PlayError DynamicMixerController :=
  match h.mixer with
  | none => .error PlayError.NoDevice
  | some m => .ok (m.add src)

/-- A `cpal::Host` as seen by `OutputStream::try_default`: the default output
device (if any) and the outcome of enumerating all output devices, devices
being opaque `Nat` tags. -/
structure Host where
  defaultOutputDevice : Option Nat
  outputDevices : Except Nat (List Nat)

/-- `OutputStream::try_default` (lines 31-49), with `Self::try_from_device`
abstracted as `tfd` (its outcome per device is fixed by the cpal backend):
fail with `NoDevice` when there is no default device; try the default device;
on failure enumerate all output devices (returning the original error if
enumeration fails) and return the first success, or the original error. -/
def try_default (host : Host) (tfd : Nat → Except StreamError Nat) :
    Except StreamError Nat :=
  match host.defaultOutputDevice with
  | none => .error StreamError.NoDevice
  | some dd =>
    match tfd dd with
    | .ok s => .ok s
    | .error originalErr =>
      match host.outputDevices with
      | .error _ => .error originalErr
      | .ok devs =>
        match devs.findSome? (fun d => (tfd d).toOption) with
        | some s => .ok s
        | none => .error originalErr

/-! ## Helper lemmas -/

/-- A mid-ramp fade-out poll with `f = 1`: `0 < remaining_ns ≤ total_ns`
keeps the factor in `(0, 1]`, so neither pinning branch fires, the sample is
amplified by `f = 1`, and `remaining_ns` is decremented by one frame. -/
lemma nextCore_out_midramp (inp : FadeInner) (r t : ℚ) (hr : 0 < r) (hrt : r ≤ t) :
    Fadeable.nextCore ⟨inp, r, t, 1, FadeDirection.Out.toU8⟩ =
      (inp.samples.head?.map (fun v => amplify v 1),
       ⟨⟨inp.sampleRate, inp.channels, inp.samples.tail⟩,
        r - 1000000000 / ((inp.sampleRate : ℚ) * (inp.channels : ℚ)), t, 1,
        FadeDirection.Out.toU8⟩) := by
  have ht : (0 : ℚ) < t := lt_of_lt_of_le hr hrt
  have hrle : ¬(r ≤ 0) := not_le.mpr hr
  have hf0 : ¬(r / t < 0) := not_lt.mpr (by positivity)
  have hf1 : ¬(r / t > 1) := not_lt.mpr ((div_le_one ht).mpr hrt)
  simp [Fadeable.nextCore, FadeInner.next, hrle, hf0, hf1]

lemma c1Start_eq : c1Start =
    ⟨⟨1000, 1, List.replicate 500 1⟩, 1000000000, 1000000000, 1, 2⟩ := by
  simp only [c1Start, fadeable, FadeDirection.toU8]
  norm_num

/-- Closed form of the spec's fade-out scenario: after `k ∈ [1, 499]` polls
observing direction `Out`, the amplitude field is still `1`,
`remaining_ns = 1e9 - k * 1e6`, and `k` samples have been consumed. -/
lemma c1_run_closed (k : Nat) (hk : 1 ≤ k) (hk2 : k ≤ 499) :
    c1Start.runPolls FadeDirection.Out.toU8 k =
      { input := ⟨1000, 1, List.replicate (500 - k) 1⟩
        remaining_ns := 1000000000 - (k : ℚ) * 1000000
        total_ns := 1000000000
        f := 1
        current_direction := FadeDirection.Out.toU8 } := by
  induction k with
  | zero => omega
  | succ k ih =>
    rcases Nat.eq_or_lt_of_le hk with h1 | h1
    · rw [← h1]
      show (Fadeable.next (c1Start.runPolls FadeDirection.Out.toU8 0)
        FadeDirection.Out.toU8).2 = _
      have h0 : c1Start.runPolls FadeDirection.Out.toU8 0 = c1Start := rfl
      rw [h0, c1Start_eq, Fadeable.next]
      have hobs : Fadeable.observeDirection
          ⟨⟨1000, 1, List.replicate 500 1⟩, 1000000000, 1000000000, 1, 2⟩
          FadeDirection.Out.toU8 =
          ⟨⟨1000, 1, List.replicate 500 1⟩, 1000000000, 1000000000, 1,
            FadeDirection.Out.toU8⟩ := by
        rw [Fadeable.observeDirection]
        norm_num [FadeDirection.toU8]
      rw [hobs, nextCore_out_midramp _ _ _ (by norm_num) le_rfl]
      have htail0 : (List.replicate 500 (1 : ℚ)).tail = List.replicate 499 1 := by
        rw [show (500 : ℕ) = 499 + 1 from rfl, List.replicate_succ, List.tail_cons]
      rw [htail0]
      norm_num
    · have hk1 : 1 ≤ k := by omega
      have hk498 : k ≤ 498 := by omega
      have hkq : (k : ℚ) ≤ 498 := by exact_mod_cast hk498
      have hkq0 : (0 : ℚ) ≤ (k : ℚ) := Nat.cast_nonneg k
      rw [Fadeable.runPolls, ih hk1 (by omega), Fadeable.next]
      have hobs : Fadeable.observeDirection
          ⟨⟨1000, 1, List.replicate (500 - k) 1⟩,
            1000000000 - (k : ℚ) * 1000000, 1000000000, 1, FadeDirection.Out.toU8⟩
          FadeDirection.Out.toU8 = ⟨⟨1000, 1, List.replicate (500 - k) 1⟩,
            1000000000 - (k : ℚ) * 1000000, 1000000000, 1, FadeDirection.Out.toU8⟩ := by
        rw [Fadeable.observeDirection]
        simp
      rw [hobs, nextCore_out_midramp _ _ _ (by nlinarith) (by nlinarith)]
      have htail : (List.replicate (500 - k) (1 : ℚ)).tail =
          List.replicate (500 - (k + 1)) 1 := by
        have h5 : 500 - k = (500 - (k + 1)) + 1 := by omega
        rw [h5, List.replicate_succ, List.tail_cons]
      rw [htail]
      norm_num
      ring

/-- On any poll, the amplitude the code can assign to `f` is `0`, `1`, or
the previous value of `f`. -/
lemma next_f_cases (s : Fadeable) (req : Nat) :
    (s.next req).2.f = s.f ∨ (s.next req).2.f = 0 ∨ (s.next req).2.f = 1 := by
  simp only [Fadeable.next, Fadeable.observeDirection, Fadeable.nextCore,
    FadeInner.next]
  split_ifs <;> simp

/-- On any poll, the emitted sample is the inner head sample multiplied by
the value `f` holds after the poll. -/
lemma next_output_amp (s : Fadeable) (req : Nat) :
    (s.next req).1 = s.input.samples.head?.map (fun v => v * (s.next req).2.f) := by
  simp only [Fadeable.next, Fadeable.observeDirection, Fadeable.nextCore,
    FadeInner.next]
  split_ifs <;> simp [amplify]

/-! ## Claim theorems -/

/-- C1: per the spec, a mid-ramp fade-out poll must scale the sample by the
clamped factor `remaining_ns / total_ns`, so in the scenario
`total_ns = 1e9`, `sample_rate = 1000`, `channels = 1`, direction `Out` from
the start, the 500th poll must apply amplitude ≈ 0.5.  The code instead
applies `f`, which the ramp never updates inside `(0, 1)`: on the 500th poll
`remaining_ns = 5.01e8` (so the spec's factor is `0.501`), yet the emitted
sample is the inner sample `1` amplified by `f = 1`. -/
theorem c1_poll500_applies_full_amplitude :
    ((c1Start.runPolls FadeDirection.Out.toU8 499).next FadeDirection.Out.toU8).1 =
      some 1
  ∧ (c1Start.runPolls FadeDirection.Out.toU8 499).remaining_ns = 501000000
  ∧ (c1Start.runPolls FadeDirection.Out.toU8 499).total_ns = 1000000000
  ∧ ((c1Start.runPolls FadeDirection.Out.toU8 499).next FadeDirection.Out.toU8).2.f =
      1 := by
  rw [c1_run_closed 499 (by norm_num) (by norm_num)]
  rw [Fadeable.next]
  have hobs : Fadeable.observeDirection
      ⟨⟨1000, 1, List.replicate (500 - 499) 1⟩,
        1000000000 - ((499 : ℕ) : ℚ) * 1000000, 1000000000, 1, FadeDirection.Out.toU8⟩
      FadeDirection.Out.toU8 = ⟨⟨1000, 1, List.replicate (500 - 499) 1⟩,
        1000000000 - ((499 : ℕ) : ℚ) * 1000000, 1000000000, 1,
        FadeDirection.Out.toU8⟩ := by
    rw [Fadeable.observeDirection]
    simp
  rw [hobs, nextCore_out_midramp _ _ _ (by norm_num) (by norm_num)]
  refine ⟨?_, by norm_num, rfl, ?_⟩
  · norm_num [List.replicate, amplify]
  · norm_num

/-- C2: whenever the observed value of the shared direction cell differs from
`current_direction`, the poll first resets `remaining_ns` to `total_ns` and
adopts the new direction, and only then runs the amplitude computation: a
newly requested direction restarts its ramp from the full duration. -/
theorem c2_direction_change_resets_ramp (s : Fadeable) (req : Nat)
    (hne : req ≠ s.current_direction) :
    (s.observeDirection req).remaining_ns = s.total_ns
  ∧ (s.observeDirection req).current_direction = req
  ∧ s.next req = Fadeable.nextCore
      { s with remaining_ns := s.total_ns, current_direction := req } := by
  simp [Fadeable.observeDirection, Fadeable.next, hne]

theorem c2_direction_change_resets_ramp_witness :
    ((1 : Nat) ≠ (fadeable ⟨1, 1, []⟩ 5).1.current_direction)
  ∧ (((fadeable ⟨1, 1, []⟩ 5).1.observeDirection 1).remaining_ns =
      (fadeable ⟨1, 1, []⟩ 5).1.total_ns)
  ∧ (((fadeable ⟨1, 1, []⟩ 5).1.observeDirection 1).current_direction = 1) := by
  refine ⟨by decide, ?_, ?_⟩
  · exact (c2_direction_change_resets_ramp (fadeable ⟨1, 1, []⟩ 5).1 1 (by decide)).1
  · exact (c2_direction_change_resets_ramp (fadeable ⟨1, 1, []⟩ 5).1 1 (by decide)).2.1

/-- C8: with `remaining_ns ≤ 0` and `f` pinned (`f ≥ 1` or `f ≤ 0`), and the
requested direction unchanged, the poll takes the fast path: the inner sample
is scaled by the pinned `f`, `remaining_ns` is not decremented, no field of
the state changes except the consumed sample, and the fast-path condition
still holds afterwards, so it persists until the requested direction
changes. -/
theorem c8_fast_path_pinned (s : Fadeable) (req : Nat)
    (hreq : req = s.current_direction)
    (hr : s.remaining_ns ≤ 0) (hf : s.f ≥ 1 ∨ s.f ≤ 0) :
    (s.next req).1 = s.input.samples.head?.map (fun v => amplify v s.f)
  ∧ (s.next req).2.remaining_ns = s.remaining_ns
  ∧ (s.next req).2.total_ns = s.total_ns
  ∧ (s.next req).2.f = s.f
  ∧ (s.next req).2.current_direction = s.current_direction
  ∧ (s.next req).2.remaining_ns ≤ 0
  ∧ ((s.next req).2.f ≥ 1 ∨ (s.next req).2.f ≤ 0) := by
  have hobs : s.observeDirection req = s := by
    simp [Fadeable.observeDirection, hreq]
  have hcond : s.remaining_ns ≤ 0 ∧ (s.f ≥ 1 ∨ s.f ≤ 0) := ⟨hr, hf⟩
  rw [Fadeable.next, hobs, Fadeable.nextCore, if_pos hcond]
  simp [FadeInner.next, hr, hf]

theorem c8_fast_path_pinned_witness :
    (Fadeable.next ⟨⟨8, 2, [3]⟩, 0, 5, 1, 2⟩ 2).1 = some 3
  ∧ (Fadeable.next ⟨⟨8, 2, [3]⟩, 0, 5, 1, 2⟩ 2).2.remaining_ns = 0 := by
  have h := c8_fast_path_pinned ⟨⟨8, 2, [3]⟩, 0, 5, 1, 2⟩ 2 rfl le_rfl
    (Or.inl le_rfl)
  refine ⟨?_, ?_⟩
  · rw [h.1]
    norm_num [amplify]
  · rw [h.2.1]

/-- C9: from a fresh `Fadeable`, under any interleaving of polls and
`change_direction` stores, `f` only ever holds exactly `1` (its initial
value) or exactly `0` — it is assigned only by the two pinning branches —
and the amplitude a poll applies to a sample is the post-poll value of `f`,
so no intermediate amplitude in `(0, 1)` is ever stored or applied. -/
theorem c9_amplitude_only_zero_or_one (s : Fadeable) (h : FadeReachable s) :
    (s.f = 1 ∨ s.f = 0)
  ∧ ∀ req : Nat, ((s.next req).2.f = 1 ∨ (s.next req).2.f = 0)
  ∧ (s.next req).1 = s.input.samples.head?.map (fun v => v * (s.next req).2.f) := by
  induction h with
  | init input duration_ns =>
    refine ⟨Or.inl rfl, fun req => ⟨?_, next_output_amp _ _⟩⟩
    rcases next_f_cases (fadeable input duration_ns).1 req with h1 | h1 | h1
    · rw [h1]
      exact Or.inl rfl
    · exact Or.inr h1
    · exact Or.inl h1
  | step s req hs ih =>
    refine ⟨(ih.2 req).1, fun req2 => ⟨?_, next_output_amp _ _⟩⟩
    rcases next_f_cases (s.next req).2 req2 with h1 | h1 | h1
    · rw [h1]
      exact (ih.2 req).1
    · exact Or.inr h1
    · exact Or.inl h1

theorem c9_amplitude_only_zero_or_one_witness :
    ((fadeable ⟨1, 1, []⟩ 3).1.f = 1 ∨ (fadeable ⟨1, 1, []⟩ 3).1.f = 0) :=
  (c9_amplitude_only_zero_or_one (fadeable ⟨1, 1, []⟩ 3).1
    (FadeReachable.init ⟨1, 1, []⟩ 3)).1

/-- C10: a poll emits a sample exactly when the inner source does (fading
never drops, truncates, or fabricates samples), and the per-poll bookkeeping
— direction check, ramp reset, `remaining_ns` decrement, `f` update — is the
same when the inner source is exhausted as when it is not. -/
theorem c10_some_iff_inner_some (s : Fadeable) (req : Nat) :
    ((s.next req).1.isSome = (s.input.next).1.isSome)
  ∧ (s.exhaust.next req).2.remaining_ns = (s.next req).2.remaining_ns
  ∧ (s.exhaust.next req).2.f = (s.next req).2.f
  ∧ (s.exhaust.next req).2.current_direction = (s.next req).2.current_direction
  ∧ (s.exhaust.next req).2.total_ns = (s.next req).2.total_ns
  ∧ (s.exhaust.next req).1 = none := by
  simp only [Fadeable.next, Fadeable.observeDirection, Fadeable.exhaust,
    Fadeable.nextCore, FadeInner.next]
  split_ifs <;> simp

/-- Walking a candidate list with `find_map(.. .ok())` yields nothing when
every candidate fails. -/
lemma findSome?_toOption_none {α β ε : Type} (f : α → Except ε β) (l : List α)
    (h : ∀ a ∈ l, ∃ e, f a = .error e) :
    (l.findSome? fun a => (f a).toOption) = none := by
  induction l with
  | nil => rfl
  | cons a l ih =>
    rcases h a (List.mem_cons_self a l) with ⟨e, he⟩
    rw [List.findSome?_cons]
    simp only [he, Except.toOption]
    exact ih fun b hb => h b (List.mem_cons_of_mem a hb)

/-- Walking a candidate list with `find_map(.. .ok())` returns the first
success in list order. -/
lemma findSome?_toOption_first {α β ε : Type} (f : α → Except ε β)
    (l₁ : List α) (d : α) (l₂ : List α) (s : β)
    (h1 : ∀ g ∈ l₁, ∃ e, f g = .error e) (h2 : f d = .ok s) :
    ((l₁ ++ d :: l₂).findSome? fun a => (f a).toOption) = some s := by
  induction l₁ with
  | nil =>
    rw [List.nil_append, List.findSome?_cons]
    simp [h2, Except.toOption]
  | cons a l ih =>
    rcases h1 a (List.mem_cons_self a l) with ⟨e, he⟩
    rw [List.cons_append, List.findSome?_cons]
    simp only [he, Except.toOption]
    exact ih fun b hb => h1 b (List.mem_cons_of_mem a hb)

/-- C3: when the preferred configuration fails to build with error `e` and
every negotiated fallback candidate also fails, `try_new_output_stream_config`
reports the original error `e` wrapped as `StreamError::BuildStreamError` —
not the last candidate's error; and candidates are attempted strictly in list
order, the first success being returned. -/
theorem c3_original_error_kept (cmp : SupportedStreamConfigRange →
      SupportedStreamConfigRange → Ordering)
    (device : Device) (config : SupportedStreamConfig) (e : Nat)
    (hfail : device.newOutputStreamWithFormat config = .error e)
    (rs : List SupportedStreamConfigRange)
    (hok : device.supportedOutputConfigs = .ok rs) :
    ((∀ fmt ∈ (rs.mergeSort (sortLE cmp)).flatMap formatBurst,
        ∃ e2, device.newOutputStreamWithFormat fmt = .error e2) →
      tryNewOutputStreamConfig cmp device config =
        .error (StreamError.BuildStreamError e))
  ∧ (∀ l₁ fmt l₂ s, (rs.mergeSort (sortLE cmp)).flatMap formatBurst = l₁ ++ fmt :: l₂ →
      (∀ g ∈ l₁, ∃ e2, device.newOutputStreamWithFormat g = .error e2) →
      device.newOutputStreamWithFormat fmt = .ok s →
      tryNewOutputStreamConfig cmp device config = .ok s) := by
  constructor
  · intro hall
    rw [tryNewOutputStreamConfig, hfail]
    simp only [supported_output_formats, hok]
    rw [findSome?_toOption_none _ _ hall]
  · intro l₁ fmt l₂ s hsplit hbefore hfmt
    rw [tryNewOutputStreamConfig, hfail]
    simp only [supported_output_formats, hok]
    rw [hsplit, findSome?_toOption_first _ _ _ _ _ hbefore hfmt]

theorem c3_original_error_kept_witness :
    tryNewOutputStreamConfig (fun _ _ => Ordering.eq)
        ⟨fun _ => .error 3, .ok [⟨2, 44100, 44100, 0⟩]⟩ ⟨2, 48000, 0⟩ =
      .error (StreamError.BuildStreamError 3)
  ∧ tryNewOutputStreamConfig (fun _ _ => Ordering.eq)
        ⟨fun c => if c.sampleRate = 48000 then .ok 7 else .error 5,
         .ok [⟨2, 48000, 48000, 0⟩]⟩ ⟨2, 99, 0⟩ = .ok 7 := by
  constructor
  · exact (c3_original_error_kept _ _ _ 3 rfl _ rfl).1 (fun fmt _ => ⟨3, rfl⟩)
  · have hms : ([⟨2, 48000, 48000, 0⟩] : List SupportedStreamConfigRange).mergeSort
        (sortLE (fun _ _ => Ordering.eq)) = [⟨2, 48000, 48000, 0⟩] := by
      simp [List.mergeSort]
    refine (c3_original_error_kept _ _ _ 5 (by simp) _ rfl).2 []
      ⟨2, 48000, 0⟩ [⟨2, 48000, 0⟩] 7 ?_ (by simp) (by simp)
    rw [hms]
    decide

/-- C4: for a non-empty supported-family list, `supported_output_formats`
emits the families most preferred first under the default-quality relation
(descending order, a permutation of the input), and per family the burst is
max rate, then exactly 44100 Hz iff 44100 lies strictly between min and max,
then min rate — 3 candidates for a straddling family, 2 otherwise, no
duplicate suppression.  Determinism is immediate: the embedding is a pure
function of its input. -/
theorem c4_supported_formats_shape (cmp : SupportedStreamConfigRange →
      SupportedStreamConfigRange → Ordering)
    (htrans : ∀ a b c, sortLE cmp a b → sortLE cmp b c → sortLE cmp a c)
    (htotal : ∀ a b, sortLE cmp a b || sortLE cmp b a)
    (device : Device) (rs : List SupportedStreamConfigRange)
    (hok : device.supportedOutputConfigs = .ok rs) (_hne : rs ≠ []) :
    supported_output_formats cmp device =
      .ok ((rs.mergeSort (sortLE cmp)).flatMap formatBurst)
  ∧ (rs.mergeSort (sortLE cmp)).Perm rs
  ∧ (rs.mergeSort (sortLE cmp)).Pairwise (fun a b => sortLE cmp a b = true)
  ∧ (∀ sf, formatBurst sf =
      [sf.withMaxSampleRate]
        ++ (if HZ_44100 < sf.maxSampleRate ∧ sf.minSampleRate < HZ_44100
            then [sf.withSampleRate HZ_44100] else [])
        ++ [sf.withSampleRate sf.minSampleRate])
  ∧ (∀ sf, (formatBurst sf).length =
      if HZ_44100 < sf.maxSampleRate ∧ sf.minSampleRate < HZ_44100 then 3 else 2) := by
  refine ⟨?_, List.mergeSort_perm rs _, List.sorted_mergeSort htrans htotal rs,
    ?_, ?_⟩
  · simp [supported_output_formats, hok]
  · intro sf
    by_cases h : HZ_44100 < sf.maxSampleRate ∧ sf.minSampleRate < HZ_44100
    · simp [formatBurst, h, GT.gt]
    · have h2 : ¬(HZ_44100 < sf.maxSampleRate ∧ HZ_44100 > sf.minSampleRate) := by
        simpa [GT.gt] using h
      simp [formatBurst, h2, h]
  · intro sf
    by_cases h : HZ_44100 < sf.maxSampleRate ∧ sf.minSampleRate < HZ_44100
    · simp [formatBurst, h, GT.gt]
    · have h2 : ¬(HZ_44100 < sf.maxSampleRate ∧ HZ_44100 > sf.minSampleRate) := by
        simpa [GT.gt] using h
      simp [formatBurst, h2, h]

theorem c4_supported_formats_shape_witness :
    (formatBurst ⟨2, 8000, 48000, 0⟩).length = 3
  ∧ (formatBurst ⟨2, 48000, 96000, 0⟩).length = 2 := by
  have h := c4_supported_formats_shape (fun _ _ => Ordering.eq) (fun _ _ _ _ _ => rfl)
    (fun _ _ => rfl) ⟨fun _ => .error 0, .ok [⟨2, 8000, 48000, 0⟩]⟩ _ rfl (by simp)
  constructor
  · have h3 := h.2.2.2.2 ⟨2, 8000, 48000, 0⟩
    norm_num [HZ_44100] at h3
    exact h3
  · have h2 := h.2.2.2.2 ⟨2, 48000, 96000, 0⟩
    norm_num [HZ_44100] at h2
    exact h2

/-- C5: every slot of the callback buffer is written (the output has the
buffer's length), a slot whose mixer poll yielded nothing receives the
format's silence value, and that value is numeric zero for the floating and
signed formats and `uN::MAX / 2` (the range midpoint) for the unsigned
formats; no error is propagated (the callback is total). -/
theorem c5_underrun_writes_silence (fmt : SampleFormat) (conv : ℚ → ℚ)
    (yields : Nat → Option ℚ) (n : Nat) :
    (runCallback fmt conv yields n).length = n
  ∧ (∀ i, i < n → yields i = none →
      (runCallback fmt conv yields n)[i]? = some (writeSlot fmt conv none))
  ∧ writeSlot SampleFormat.f32 conv none = 0
  ∧ writeSlot SampleFormat.f64 conv none = 0
  ∧ writeSlot SampleFormat.i8 conv none = 0
  ∧ writeSlot SampleFormat.i16 conv none = 0
  ∧ writeSlot SampleFormat.i32 conv none = 0
  ∧ writeSlot SampleFormat.i64 conv none = 0
  ∧ writeSlot SampleFormat.u8 conv none = 127
  ∧ writeSlot SampleFormat.u16 conv none = 32767
  ∧ writeSlot SampleFormat.u32 conv none = 2147483647
  ∧ writeSlot SampleFormat.u64 conv none = 9223372036854775807 := by
  refine ⟨by simp [runCallback], ?_, rfl, rfl, rfl, rfl, rfl, rfl,
    by norm_num [writeSlot], by norm_num [writeSlot], by norm_num [writeSlot],
    by norm_num [writeSlot]⟩
  intro i hi hnone
  simp [runCallback, List.getElem?_map, List.getElem?_range, hi, hnone]

theorem c5_underrun_writes_silence_witness :
    (1 < 2)
  ∧ (runCallback SampleFormat.u8 (fun q => q) (fun _ => none) 2)[1]? = some 127 := by
  refine ⟨by norm_num, ?_⟩
  have h := c5_underrun_writes_silence SampleFormat.u8 (fun q => q) (fun _ => none) 2
  have h2 := h.2.1 1 (by norm_num) rfl
  rw [h2, h.2.2.2.2.2.2.2.2.1]

/-- C6: when the backing `OutputStream` is gone (the weak mixer reference no
longer upgrades), `play_raw` returns `Err(PlayError::NoDevice)` and no mixer
receives the source; when the stream is alive, `play_raw` adds the source to
the mixer and succeeds. -/
theorem c6_play_raw_device_gone (h : OutputStreamHandle) (src : Nat) :
    (h.mixer = none → h.play_raw src = .error PlayError.NoDevice)
  ∧ (∀ m, h.mixer = some m →
      h.play_raw src = .ok (m.add src)
    ∧ (m.add src).sources = m.sources ++ [src]) := by
  constructor
  · intro hnone
    simp [OutputStreamHandle.play_raw, hnone]
  · intro m hsome
    refine ⟨?_, rfl⟩
    simp [OutputStreamHandle.play_raw, hsome]

theorem c6_play_raw_device_gone_witness :
    OutputStreamHandle.play_raw ⟨none⟩ 5 = .error PlayError.NoDevice
  ∧ OutputStreamHandle.play_raw ⟨some ⟨[4]⟩⟩ 5 = .ok ⟨[4, 5]⟩ := by
  constructor
  · exact (c6_play_raw_device_gone ⟨none⟩ 5).1 rfl
  · have h := ((c6_play_raw_device_gone ⟨some ⟨[4]⟩⟩ 5).2 ⟨[4]⟩ rfl).1
    rw [h]
    rfl

/-- C7: `try_default` fails with `StreamError::NoDevice` when there is no
default output device; succeeds directly when the default device opens; and
when the default device fails with `e`, returns `e` if device enumeration
fails, the first device (in enumeration order) that opens if any does, and
`e` when none does. -/
theorem c7_try_default_fallback (host : Host) (tfd : Nat → Except StreamError Nat) :
    (host.defaultOutputDevice = none →
      try_default host tfd = .error StreamError.NoDevice)
  ∧ (∀ dd s, host.defaultOutputDevice = some dd → tfd dd = .ok s →
      try_default host tfd = .ok s)
  ∧ (∀ dd e, host.defaultOutputDevice = some dd → tfd dd = .error e →
      (∀ le, host.outputDevices = .error le → try_default host tfd = .error e)
    ∧ (∀ devs, host.outputDevices = .ok devs →
        ((∀ d ∈ devs, ∃ e2, tfd d = .error e2) → try_default host tfd = .error e)
      ∧ (∀ l₁ d l₂ s, devs = l₁ ++ d :: l₂ →
          (∀ g ∈ l₁, ∃ e2, tfd g = .error e2) → tfd d = .ok s →
          try_default host tfd = .ok s))) := by
  refine ⟨?_, ?_, ?_⟩
  · intro hnone
    simp [try_default, hnone]
  · intro dd s hdd hok
    simp [try_default, hdd, hok]
  · intro dd e hdd herr
    refine ⟨?_, ?_⟩
    · intro le hle
      simp [try_default, hdd, herr, hle]
    · intro devs hdevs
      refine ⟨?_, ?_⟩
      · intro hall
        simp only [try_default, hdd, herr, hdevs]
        rw [findSome?_toOption_none _ _ hall]
      · intro l₁ d l₂ s hsplit hbefore hdok
        simp only [try_default, hdd, herr, hdevs]
        rw [hsplit, findSome?_toOption_first _ _ _ _ _ hbefore hdok]

theorem c7_try_default_fallback_witness :
    try_default ⟨some 0, .ok [1, 2, 3]⟩
      (fun d => if d = 2 then .ok 9 else .error (StreamError.BuildStreamError d)) =
      .ok 9
  ∧ try_default ⟨none, .ok []⟩ (fun _ => .error StreamError.NoDevice) =
      .error StreamError.NoDevice
  ∧ try_default ⟨some 0, .error 7⟩
      (fun d => .error (StreamError.BuildStreamError d)) =
      .error (StreamError.BuildStreamError 0) := by
  refine ⟨?_, ?_, ?_⟩
  · refine (((c7_try_default_fallback _ _).2.2 0 (StreamError.BuildStreamError 0)
      rfl (by norm_num)).2 [1, 2, 3] rfl).2 [1] 2 [3] 9 rfl ?_ (by norm_num)
    intro g hg
    simp only [List.mem_singleton] at hg
    subst hg
    exact ⟨StreamError.BuildStreamError 1, by norm_num⟩
  · exact (c7_try_default_fallback _ _).1 rfl
  · exact ((c7_try_default_fallback _ _).2.2 0 (StreamError.BuildStreamError 0)
      rfl rfl).1 7 rfl

end Rodio
